import Mathlib

/-!
Verification of the cost-computation and free-tier knowledge-mining core of the
gcp-cost-mcp-server repository, as a shallow embedding in Lean.

Modelling conventions:
* Go `float64` quantities (usage amounts, tier start amounts, prices) are modelled
  by exact rationals `ℚ`.  Every numeric value appearing in the verified claims is
  exactly representable in binary floating point and the arithmetic performed on
  them by the source rounds to the same values, so the rational model is faithful
  on the claims' inputs.
* Go strings are Lean `String`s / `List Char`; `strings.ToLower` is modelled by
  `Char.toLower` (identical on the ASCII inputs involved).
* Numeric fields that the source stores as strings and parses with
  `strconv.ParseFloat` while discarding the error (`startAmount`, `units`) are
  modelled by their parsed numeric values.
* Fallible Go functions returning `(T, error)` are modelled with `Except String T`
  (or with explicit `Option`-valued components).
-/

namespace GcpCost

/-- A pricing tier, from the source's `Tier` record: `StartAmount.Value` is kept as
its parsed numeric value, `ListPrice` as its `Units` (parsed) and `Nanos` fields. -/
structure Tier where
  startAmount : ℚ
  priceUnits : ℚ
  priceNanos : ℤ
deriving DecidableEq, Repr

/-- The part of the source's `Rate` record used by `CalculateCost` (its
`UnitInfo`/`AggregationInfo` fields are never read there). -/
structure Rate where
  tiers : List Tier
deriving DecidableEq, Repr

/-- `units + nanos/1e9`, exactly as computed inside the `CalculateCost` loop. -/
def pricePerUnit (t : Tier) : ℚ :=
  t.priceUnits + (t.priceNanos : ℚ) / 1000000000

/-- The tier-walking loop of `CalculateCost`: for tier `i` the upper bound is the
start of tier `i+1`, or `remainingUsage + startAmount + 1` for the last tier; a
non-positive range is skipped; the usage billed in a tier is capped at the tier
range; the loop stops once remaining usage is non-positive. -/
def calcTiers : List Tier → ℚ → ℚ
  | [], _ => 0
  | [t], remainingUsage =>
      let endAmount := remainingUsage + t.startAmount + 1
      let tierRange := endAmount - t.startAmount
      if tierRange ≤ 0 then 0
      else
        let usageInTier := if remainingUsage > tierRange then tierRange else remainingUsage
        usageInTier * pricePerUnit t
  | t :: t2 :: rest, remainingUsage =>
      let tierRange := t2.startAmount - t.startAmount
      if tierRange ≤ 0 then calcTiers (t2 :: rest) remainingUsage
      else
        let usageInTier := if remainingUsage > tierRange then tierRange else remainingUsage
        let cost := usageInTier * pricePerUnit t
        let remaining2 := remainingUsage - usageInTier
        if remaining2 ≤ 0 then cost else cost + calcTiers (t2 :: rest) remaining2

/-- `CalculateCost(rate, usageAmount)`: errors when the rate is nil or has no
tiers, otherwise runs the tier walk. -/
def CalculateCost (rate : Option Rate) (usageAmount : ℚ) : Except String ℚ :=
  match rate with
  | none => .error "invalid price data: rate is nil"
  | some r =>
      if r.tiers.isEmpty then .error "no pricing tiers available"
      else .ok (calcTiers r.tiers usageAmount)

/-- The free-tier application and cost computation of the `estimate_cost` tool
body (`NewEstimateCost`), after SKU-price retrieval: validates that the usage is
non-negative, clamps the billable usage against the matched free-tier allowance
(when one matched), and prices the billable usage.  Returns
`(freeTierApplied, billableUsage, estimatedCost)`. -/
def estimateCost (rate : Option Rate) (usageAmount : ℚ) (matchedAmount : Option ℚ) :
    Except String (ℚ × ℚ × ℚ) :=
  if usageAmount < 0 then .error "usage_amount must be non-negative"
  else
    let totalUsage := usageAmount
    let applied : ℚ × ℚ :=
      match matchedAmount with
      | some amt => (min totalUsage amt, max 0 (totalUsage - amt))
      | none => (0, totalUsage)
    match CalculateCost rate applied.2 with
    | .error e => .error e
    | .ok c => .ok (applied.1, applied.2, c)

/-! ### String utilities (Go `strings` package operations used by the source) -/

/-- `leadsWith pat s`: `pat` is an initial segment of `s` (Go `strings.HasPrefix`). -/
def leadsWith : List Char → List Char → Bool
  | [], _ => true
  | _ :: _, [] => false
  | p :: ps, c :: cs => p = c && leadsWith ps cs

/-- `hasSub pat s`: `pat` occurs as a contiguous substring of `s`
(Go `strings.Contains`). -/
def hasSub (pat : List Char) : List Char → Bool
  | [] => pat.isEmpty
  | c :: rest => leadsWith pat (c :: rest) || hasSub pat rest

def strContains (s sub : String) : Bool := hasSub sub.data s.data

/-- Go `strings.ToLower` (the inputs involved are ASCII, where `Char.toLower`
coincides with it). -/
def toLowerStr (s : String) : String := String.mk (s.data.map Char.toLower)

/-- The whitespace set trimmed by Go `strings.TrimSpace` (ASCII part). -/
def isGoSpace (c : Char) : Bool :=
  c = ' ' || c = '\t' || c = '\n' || c = '\r' || c = '\x0b' || c = '\x0c'

def trimSpaces (l : List Char) : List Char :=
  ((l.dropWhile isGoSpace).reverse.dropWhile isGoSpace).reverse

/-! ### Period classification (`ExtractPeriod`, scraper extraction file) -/

/-- `ExtractPeriod`: lowercases the content, returns "day" whenever any day cue
("per day", "daily", "/day") occurs anywhere, else "always" when "always free"
occurs, else "month". -/
def ExtractPeriod (content : String) : String :=
  let contentLower := toLowerStr content
  if strContains contentLower "per day" || strContains contentLower "daily" ||
      strContains contentLower "/day" then "day"
  else if strContains contentLower "always free" then "always"
  else "month"

/-! ### Document fetching (`FetchAsText`, scraper.go) -/

/-- The address validation performed by `FetchAsText`:
`strings.HasPrefix(url, "https://cloud.google.com")`. -/
def fetchURLAllowed (url : String) : Bool :=
  leadsWith "https://cloud.google.com".data url.data

/-- `FetchAsText`, with the network stage (request construction/execution, status
check, body read, HTML text extraction) abstracted as the oracle `net`; the
address validation is the faithful part. -/
def FetchAsText (net : String → Except String String) (url : String) :
    Except String String :=
  if !(fetchURLAllowed url) then .error "URL must be from cloud.google.com"
  else net url

/-- Modelled from the claim's words: the host of an https address is the text
between the "https://" scheme and the next '/'. -/
def hostOf (url : String) : Option String :=
  if leadsWith "https://".data url.data then
    some (String.mk ((url.data.drop 8).takeWhile (fun c => c ≠ '/')))
  else none

/-! ### Free-tier service data model and cache (`service.go`) -/

/-- `FreeTierItem`: one extracted allowance. -/
structure FreeTierItem where
  resource : String
  amount : ℚ
  unit : String
deriving DecidableEq, Repr

/-- `FreeTierInfo`: the consolidated free-tier record for a service. -/
structure FreeTierInfo where
  serviceName : String
  items : List FreeTierItem
  scope : String
  period : String
  conditions : List String
  sourceURL : String
deriving DecidableEq, Repr

/-- `CachedFreeTier`: a cache entry; time instants are modelled as integers. -/
structure CachedFreeTier where
  info : Option FreeTierInfo
  cachedAt : ℤ
  expiresAt : ℤ
deriving DecidableEq, Repr

/-- `IsExpired`: `time.Now().After(c.ExpiresAt)` at the model instant `now`. -/
def IsExpired (now : ℤ) (c : CachedFreeTier) : Bool := decide (now > c.expiresAt)

/-- `normalizeServiceName`: lowercase, trim, replace spaces with hyphens. -/
def normalizeServiceName (name : String) : String :=
  let n1 := name.data.map Char.toLower
  let n2 := trimSpaces n1
  String.mk (n2.map (fun c => if c = ' ' then '-' else c))

/-- Lookup in the service's cache map, modelled as an association list. -/
def cacheLookup (cache : List (String × CachedFreeTier)) (k : String) :
    Option CachedFreeTier :=
  (cache.find? (fun e => e.1 == k)).map (fun e => e.2)

/-- Map assignment `s.cache[cacheKey] = entry`. -/
def cacheInsert (cache : List (String × CachedFreeTier)) (k : String)
    (v : CachedFreeTier) : List (String × CachedFreeTier) :=
  (k, v) :: cache.filter (fun e => !(e.1 == k))

/-- `GetFreeTier`, as a pure state transition on the cache: `fetchResult` is the
outcome of the network-backed `fetchFreeTierFromDocs` (which returns either a
non-nil record or an error), `now` the current instant, `cacheTTL` the
time-to-live.  Returns `((info, error), newCache)` following the source: cache
hit returns the entry; on a fetch error it returns `nil, nil` without touching
the cache; on success it stores and returns the record. -/
def GetFreeTier (cacheTTL now : ℤ) (cache : List (String × CachedFreeTier))
    (fetchResult : Except String FreeTierInfo) (serviceName : String) :
    (Option FreeTierInfo × Option String) × List (String × CachedFreeTier) :=
  let cacheKey := normalizeServiceName serviceName
  let hit : Option (Option FreeTierInfo) :=
    match cacheLookup cache cacheKey with
    | some cached => if IsExpired now cached then none else some cached.info
    | none => none
  match hit with
  | some info => ((info, none), cache)
  | none =>
    match fetchResult with
    | .error _ => ((none, none), cache)
    | .ok freeTier =>
        ((some freeTier, none),
         cacheInsert cache cacheKey ⟨some freeTier, now, now + cacheTTL⟩)

/-- No live cache entry for `key` at instant `now` (absent or expired). -/
def cacheMiss (cache : List (String × CachedFreeTier)) (now : ℤ) (key : String) : Prop :=
  ∀ c, cacheLookup cache key = some c → now > c.expiresAt

/-! ### Regular-expression engine for the free-tier extraction patterns

The source compiles fixed `(?i)`-flagged regular expressions (Go `regexp`,
leftmost-first semantics) and runs `FindAllStringSubmatch`.  The patterns use
only: case-insensitive literals, character classes (`[0-9,]`, `[0-9.]`, `\d`,
`\s`, `[:\s]`, `[- ]`), greedy `*`/`+`/`?` over single characters, non-capturing
alternation groups `(?:a|b|c)` (never nested), optional groups `(?:...)?`, and a
single capturing group per pattern that is always a character-class `+`.  The
embedding below implements exactly that fragment with leftmost-first backtracking
(alternatives in written order, greedy quantifiers with give-back). -/

/-- A single-character regex element (literals are matched case-insensitively,
reflecting the global `(?i)` flag; pattern literals are stored lowercase). -/
inductive RAtom where
  | lit (c : Char)
  | one (p : Char → Bool)
  | many (p : Char → Bool)
  | many1 (p : Char → Bool)
  | optc (p : Char → Bool)

/-- A pattern element: a plain atom, an alternation of atom sequences (tried in
written order; an optional group carries `[]` as its final alternative), or the
pattern's capturing group `([class]+)`. -/
inductive RElem where
  | atom (a : RAtom)
  | alts (xs : List (List RAtom))
  | cap (p : Char → Bool)

abbrev RPattern := List RElem

/-- Candidate rests after a greedy `*` over class `p`, longest match first. -/
def manyRests (p : Char → Bool) : List Char → List (List Char)
  | [] => [[]]
  | c :: cs => if p c then manyRests p cs ++ [c :: cs] else [c :: cs]

/-- Candidate `(consumed, rest)` splits for a greedy capture continuation,
longest match first. -/
def capSplits (p : Char → Bool) : List Char → List (List Char × List Char)
  | [] => [([], [])]
  | c :: cs =>
      if p c then ((capSplits p cs).map (fun pr => (c :: pr.1, pr.2))) ++ [([], c :: cs)]
      else [([], c :: cs)]

/-- First successful alternative of a backtracking search. -/
def firstSome {α β : Type} (f : α → Option β) : List α → Option β
  | [] => none
  | x :: xs =>
      match f x with
      | some r => some r
      | none => firstSome f xs

/-- Backtracking matcher for an atom sequence, in continuation-passing style:
`k` receives the rest of the input after the atoms; candidates are tried in
leftmost-first (greedy, written-order) priority. -/
def matchAtoms {α : Type} : List RAtom → List Char → (List Char → Option α) → Option α
  | [], s, k => k s
  | .lit c :: as, s, k =>
      match s with
      | [] => none
      | c2 :: s2 => if c2.toLower = c then matchAtoms as s2 k else none
  | .one p :: as, s, k =>
      match s with
      | [] => none
      | c2 :: s2 => if p c2 then matchAtoms as s2 k else none
  | .many p :: as, s, k => firstSome (fun r => matchAtoms as r k) (manyRests p s)
  | .many1 p :: as, s, k =>
      match s with
      | [] => none
      | c2 :: s2 =>
          if p c2 then firstSome (fun r => matchAtoms as r k) (manyRests p s2) else none
  | .optc p :: as, s, k =>
      match s with
      | [] => matchAtoms as [] k
      | c2 :: s2 =>
          if p c2 then
            match matchAtoms as s2 k with
            | some r => some r
            | none => matchAtoms as (c2 :: s2) k
          else matchAtoms as (c2 :: s2) k

/-- Backtracking matcher for a whole pattern anchored at the start of `s`;
returns the capture-group text and the input rest after the match. -/
def matchElems : RPattern → List Char → Option (List Char) →
    Option (List Char × List Char)
  | [], s, capv => some (capv.getD [], s)
  | .atom a :: ps, s, capv => matchAtoms [a] s (fun s2 => matchElems ps s2 capv)
  | .alts xs :: ps, s, capv =>
      firstSome (fun alt => matchAtoms alt s (fun s2 => matchElems ps s2 capv)) xs
  | .cap p :: ps, s, _capv =>
      match s with
      | [] => none
      | c :: s2 =>
          if p c then
            firstSome (fun pr => matchElems ps pr.2 (some (c :: pr.1))) (capSplits p s2)
          else none

/-- Leftmost match: try the pattern at each successive start position. -/
def findFrom (pat : RPattern) : List Char → Option (List Char × List Char)
  | [] => matchElems pat [] none
  | c :: rest =>
      match matchElems pat (c :: rest) none with
      | some r => some r
      | none => findFrom pat rest

/-- Successive non-overlapping leftmost matches (`FindAllStringSubmatch` with the
capture group projected out, which is all the source reads).  The fuel only
bounds the recursion; every source pattern consumes at least one character per
match, so `length + 1` iterations are never exhausted. -/
def findAllCaps (pat : RPattern) : Nat → List Char → List (List Char)
  | 0, _ => []
  | fuel + 1, s =>
      match findFrom pat s with
      | none => []
      | some (capv, rest) => capv :: findAllCaps pat fuel rest

def findAll (pat : RPattern) (content : List Char) : List (List Char) :=
  findAllCaps pat (content.length + 1) content

/-! ### Character classes appearing in the source patterns -/

def cDigit (c : Char) : Bool := '0' ≤ c && c ≤ '9'
def cDigCom (c : Char) : Bool := cDigit c || c = ','
def cDigDot (c : Char) : Bool := cDigit c || c = '.'
/-- Go regexp `\s` is the class `[\t\n\f\r ]`. -/
def cWs (c : Char) : Bool := c = '\t' || c = '\n' || c = '\x0c' || c = '\r' || c = ' '
def cColonWs (c : Char) : Bool := c = ':' || cWs c
def cDashSp (c : Char) : Bool := c = '-' || c = ' '
/-- Single-character class for a case-insensitive literal under a quantifier. -/
def cLit (c : Char) : Char → Bool := fun c2 => c2.toLower = c

def litsA (s : String) : List RAtom := s.data.map RAtom.lit
def litsE (s : String) : List RElem := s.data.map (fun c => RElem.atom (RAtom.lit c))
def wsA : RAtom := .many cWs
def wsE : RElem := .atom (.many cWs)

/-! Shared groups of the source patterns. -/

/-- `(?:per\s*month|/month|monthly)?` -/
def perMonthOpt : RElem :=
  .alts [litsA "per" ++ [wsA] ++ litsA "month", litsA "/month", litsA "monthly", []]
/-- `(?:per\s*day|/day|daily)?` -/
def perDayOpt : RElem :=
  .alts [litsA "per" ++ [wsA] ++ litsA "day", litsA "/day", litsA "daily", []]
/-- `(?:are\s*|is\s*)?` -/
def areIsOpt : RElem := .alts [litsA "are" ++ [wsA], litsA "is" ++ [wsA], []]
/-- `(?:is\s*)?` -/
def isOpt : RElem := .alts [litsA "is" ++ [wsA], []]
/-- `(?:of\s*)?` -/
def ofOpt : RElem := .alts [litsA "of" ++ [wsA], []]
/-- `(?:GB|GiB)` -/
def gbOrGib : RElem := .alts [litsA "gb", litsA "gib"]
/-- `(?:free|at no charge)` -/
def freeOrNoCharge : RElem := .alts [litsA "free", litsA "at no charge"]

/-- One entry of the source's `freeTierPatterns` table. -/
structure FreeTierPattern where
  regex : RPattern
  resource : String
  unit : String

/-- `(?i)([0-9,]+)\s*vCPU[- ]?seconds?\s*(?:per\s*month|/month|monthly)?\s*(?:free|at no charge)` -/
def ftp1 : FreeTierPattern :=
  ⟨[.cap cDigCom, wsE] ++ litsE "vcpu" ++ [.atom (.optc cDashSp)] ++ litsE "second" ++
      [.atom (.optc (cLit 's')), wsE, perMonthOpt, wsE, freeOrNoCharge],
    "vCPU-seconds", "seconds"⟩

/-- `(?i)([0-9,]+)\s*GiB[- ]?seconds?\s*(?:per\s*month|/month|monthly)?\s*(?:free|at no charge)` -/
def ftp2 : FreeTierPattern :=
  ⟨[.cap cDigCom, wsE] ++ litsE "gib" ++ [.atom (.optc cDashSp)] ++ litsE "second" ++
      [.atom (.optc (cLit 's')), wsE, perMonthOpt, wsE, freeOrNoCharge],
    "GiB-seconds", "seconds"⟩

/-- `(?i)free\s*tier[:\s]*([0-9,]+)\s*vCPU[- ]?seconds?` -/
def ftp3 : FreeTierPattern :=
  ⟨litsE "free" ++ [wsE] ++ litsE "tier" ++ [.atom (.many cColonWs), .cap cDigCom, wsE] ++
      litsE "vcpu" ++ [.atom (.optc cDashSp)] ++ litsE "second" ++ [.atom (.optc (cLit 's'))],
    "vCPU-seconds", "seconds"⟩

/-- `(?i)free\s*tier[:\s]*([0-9,]+)\s*GiB[- ]?seconds?` -/
def ftp4 : FreeTierPattern :=
  ⟨litsE "free" ++ [wsE] ++ litsE "tier" ++ [.atom (.many cColonWs), .cap cDigCom, wsE] ++
      litsE "gib" ++ [.atom (.optc cDashSp)] ++ litsE "second" ++ [.atom (.optc (cLit 's'))],
    "GiB-seconds", "seconds"⟩

/-- `(?i)first\s*([0-9.]+)\s*(?:GB|GiB)\s*(?:of\s*storage\s*)?(?:per\s*month|/month|monthly)?\s*(?:is\s*)?free` -/
def ftp5 : FreeTierPattern :=
  ⟨litsE "first" ++ [wsE, .cap cDigDot, wsE, gbOrGib, wsE,
      .alts [litsA "of" ++ [wsA] ++ litsA "storage" ++ [wsA], []],
      perMonthOpt, wsE, isOpt] ++ litsE "free",
    "storage", "GiB"⟩

/-- `(?i)([0-9.]+)\s*(?:GB|GiB)\s*(?:of\s*)?(?:storage|data)\s*(?:per\s*month|/month|monthly)?\s*(?:is\s*)?free` -/
def ftp6 : FreeTierPattern :=
  ⟨[.cap cDigDot, wsE, gbOrGib, wsE, ofOpt, .alts [litsA "storage", litsA "data"],
      wsE, perMonthOpt, wsE, isOpt] ++ litsE "free",
    "storage", "GiB"⟩

/-- `(?i)first\s*([0-9.]+)\s*million\s*(?:invocations?|requests?)\s*(?:per\s*month|/month|monthly)?\s*(?:are\s*|is\s*)?free` -/
def ftp7 : FreeTierPattern :=
  ⟨litsE "first" ++ [wsE, .cap cDigDot, wsE] ++ litsE "million" ++ [wsE,
      .alts [litsA "invocation" ++ [.optc (cLit 's')], litsA "request" ++ [.optc (cLit 's')]],
      wsE, perMonthOpt, wsE, areIsOpt] ++ litsE "free",
    "requests", "million"⟩

/-- `(?i)([0-9,]+)\s*(?:invocations?|requests?)\s*(?:per\s*month|/month|monthly)?\s*(?:are\s*|is\s*)?free` -/
def ftp8 : FreeTierPattern :=
  ⟨[.cap cDigCom, wsE,
      .alts [litsA "invocation" ++ [.optc (cLit 's')], litsA "request" ++ [.optc (cLit 's')]],
      wsE, perMonthOpt, wsE, areIsOpt] ++ litsE "free",
    "requests", "count"⟩

/-- `(?i)first\s*([0-9,]+)\s*(?:document\s*)?(?:reads?|read\s*operations?)\s*(?:per\s*day|/day|daily)?\s*(?:are\s*|is\s*)?free` -/
def ftp9 : FreeTierPattern :=
  ⟨litsE "first" ++ [wsE, .cap cDigCom, wsE, .alts [litsA "document" ++ [wsA], []],
      .alts [litsA "read" ++ [.optc (cLit 's')],
        litsA "read" ++ [wsA] ++ litsA "operation" ++ [.optc (cLit 's')]],
      wsE, perDayOpt, wsE, areIsOpt] ++ litsE "free",
    "document-reads", "count"⟩

/-- `(?i)first\s*([0-9,]+)\s*(?:document\s*)?(?:writes?|write\s*operations?)\s*(?:per\s*day|/day|daily)?\s*(?:are\s*|is\s*)?free` -/
def ftp10 : FreeTierPattern :=
  ⟨litsE "first" ++ [wsE, .cap cDigCom, wsE, .alts [litsA "document" ++ [wsA], []],
      .alts [litsA "write" ++ [.optc (cLit 's')],
        litsA "write" ++ [wsA] ++ litsA "operation" ++ [.optc (cLit 's')]],
      wsE, perDayOpt, wsE, areIsOpt] ++ litsE "free",
    "document-writes", "count"⟩

/-- `(?i)first\s*([0-9,]+)\s*(?:document\s*)?(?:deletes?|delete\s*operations?)\s*(?:per\s*day|/day|daily)?\s*(?:are\s*|is\s*)?free` -/
def ftp11 : FreeTierPattern :=
  ⟨litsE "first" ++ [wsE, .cap cDigCom, wsE, .alts [litsA "document" ++ [wsA], []],
      .alts [litsA "delete" ++ [.optc (cLit 's')],
        litsA "delete" ++ [wsA] ++ litsA "operation" ++ [.optc (cLit 's')]],
      wsE, perDayOpt, wsE, areIsOpt] ++ litsE "free",
    "document-deletes", "count"⟩

/-- `(?i)first\s*(\d+)\s*active\s*(?:secret\s*)?versions?\s*(?:are\s*|is\s*)?free` -/
def ftp12 : FreeTierPattern :=
  ⟨litsE "first" ++ [wsE, .cap cDigit, wsE] ++ litsE "active" ++
      [wsE, .alts [litsA "secret" ++ [wsA], []]] ++ litsE "version" ++
      [.atom (.optc (cLit 's')), wsE, areIsOpt] ++ litsE "free",
    "secret-versions", "count"⟩

/-- `(?i)first\s*([0-9,]+)\s*access\s*operations?\s*(?:per\s*month|/month|monthly)?\s*(?:are\s*|is\s*)?free` -/
def ftp13 : FreeTierPattern :=
  ⟨litsE "first" ++ [wsE, .cap cDigCom, wsE] ++ litsE "access" ++ [wsE] ++
      litsE "operation" ++ [.atom (.optc (cLit 's')), wsE, perMonthOpt, wsE, areIsOpt] ++
      litsE "free",
    "access-operations", "count"⟩

/-- `(?i)first\s*([0-9.]+)\s*(?:TB|TiB)\s*(?:of\s*)?(?:query|queries|processing)\s*(?:per\s*month|/month|monthly)?\s*(?:is\s*)?free` -/
def ftp14 : FreeTierPattern :=
  ⟨litsE "first" ++ [wsE, .cap cDigDot, wsE, .alts [litsA "tb", litsA "tib"], wsE, ofOpt,
      .alts [litsA "query", litsA "queries", litsA "processing"],
      wsE, perMonthOpt, wsE, isOpt] ++ litsE "free",
    "query-processing", "TiB"⟩

/-- `(?i)first\s*([0-9.]+)\s*(?:GB|GiB)\s*(?:of\s*)?(?:egress|outbound|network)\s*(?:per\s*month|/month|monthly)?\s*(?:is\s*)?free` -/
def ftp15 : FreeTierPattern :=
  ⟨litsE "first" ++ [wsE, .cap cDigDot, wsE, gbOrGib, wsE, ofOpt,
      .alts [litsA "egress", litsA "outbound", litsA "network"],
      wsE, perMonthOpt, wsE, isOpt] ++ litsE "free",
    "egress", "GiB"⟩

/-- `(?i)\$([0-9.]+)/month\s*(?:credit|free)` -/
def ftp16 : FreeTierPattern :=
  ⟨[.atom (.lit '$'), .cap cDigDot] ++ litsE "/month" ++
      [wsE, .alts [litsA "credit", litsA "free"]],
    "cluster-credit", "USD"⟩

/-- `(?i)first\s*([0-9.]+)\s*(?:GB|GiB)\s*(?:of\s*)?(?:message|messaging)\s*(?:per\s*month|/month|monthly)?\s*(?:is\s*)?free` -/
def ftp17 : FreeTierPattern :=
  ⟨litsE "first" ++ [wsE, .cap cDigDot, wsE, gbOrGib, wsE, ofOpt,
      .alts [litsA "message", litsA "messaging"],
      wsE, perMonthOpt, wsE, isOpt] ++ litsE "free",
    "message-delivery", "GiB"⟩

/-- The source's ordered `freeTierPatterns` table. -/
def freeTierPatterns : List FreeTierPattern :=
  [ftp1, ftp2, ftp3, ftp4, ftp5, ftp6, ftp7, ftp8, ftp9, ftp10, ftp11, ftp12, ftp13,
    ftp14, ftp15, ftp16, ftp17]

/-! ### `ExtractFreeTierItems` -/

/-- `strings.ReplaceAll(match[1], ",", "")`. -/
def stripCommas (s : List Char) : List Char := s.filter (fun c => c != ',')

def digitsVal (ds : List Char) : ℚ :=
  ds.foldl (fun acc c => acc * 10 + ((c.toNat - 48 : ℕ) : ℚ)) 0

/-- `strconv.ParseFloat` restricted to its possible inputs here: captured texts
are non-empty strings over digits/commas/dots with commas already stripped.  It
fails on an empty string, a lone dot, or more than one dot; otherwise it reads
an integer part and an optional fractional part. -/
def parseFloat (s : List Char) : Option ℚ :=
  match s.splitOn '.' with
  | [ip] => if ip.isEmpty then none else some (digitsVal ip)
  | [ip, fp] =>
      if ip.isEmpty && fp.isEmpty then none
      else some (digitsVal ip + digitsVal fp / (10 : ℚ) ^ fp.length)
  | _ => none

/-- The de-duplication key `pattern.Resource + "-" + amountStr`. -/
def itemKey (resource : String) (amountStr : List Char) : String :=
  resource ++ "-" ++ String.mk amountStr

/-- The body of the inner `for _, match := range matches` loop of
`ExtractFreeTierItems`, acting on the state (seen keys, collected items). -/
def processMatch (pattern : FreeTierPattern) (st : List String × List FreeTierItem)
    (mcap : List Char) : List String × List FreeTierItem :=
  let amountStr := stripCommas mcap
  match parseFloat amountStr with
  | none => st
  | some amount0 =>
      let amount := if pattern.unit = "million" then amount0 * 1000000 else amount0
      let key := itemKey pattern.resource amountStr
      if st.1.contains key then st
      else
        let unit := if pattern.unit = "million" then "count" else pattern.unit
        (key :: st.1, st.2 ++ [⟨pattern.resource, amount, unit⟩])

/-- `ExtractFreeTierItems`: run every pattern's matches through the
de-duplicating collection loop and return the collected items. -/
def ExtractFreeTierItems (content : String) : List FreeTierItem :=
  (freeTierPatterns.foldl
      (fun st pattern => (findAll pattern.regex content.data).foldl (processMatch pattern) st)
      ([], [])).2

/-- Key-annotated variant of the collection loop: identical to `processMatch`
except that each collected item is paired with its de-duplication key.  Used to
state the de-duplication property; `extract_pairing` shows the annotated run
projects onto `ExtractFreeTierItems`. -/
def processMatchK (pattern : FreeTierPattern)
    (st : List String × List (String × FreeTierItem)) (mcap : List Char) :
    List String × List (String × FreeTierItem) :=
  let amountStr := stripCommas mcap
  match parseFloat amountStr with
  | none => st
  | some amount0 =>
      let amount := if pattern.unit = "million" then amount0 * 1000000 else amount0
      let key := itemKey pattern.resource amountStr
      if st.1.contains key then st
      else
        let unit := if pattern.unit = "million" then "count" else pattern.unit
        (key :: st.1, st.2 ++ [(key, ⟨pattern.resource, amount, unit⟩)])

/-- Key-annotated run of `ExtractFreeTierItems`. -/
def extractItemsK (content : String) : List (String × FreeTierItem) :=
  (freeTierPatterns.foldl
      (fun st pattern =>
        (findAll pattern.regex content.data).foldl (processMatchK pattern) st)
      ([], [])).2

/-- Invariant of the collection state: collected keys are distinct, and the seen
set equals the set of collected keys. -/
def GoodState (st : List String × List (String × FreeTierItem)) : Prop :=
  (st.2.map Prod.fst).Nodup ∧ ∀ k, k ∈ st.1 ↔ k ∈ st.2.map Prod.fst

/-! ### Evaluation of the extractor on the sample document
`"First 2 million invocations per month are free."` -/

/-- The sample document of the spec's million-scaling test case. -/
def sampleDoc : String := "First 2 million invocations per month are free."

/-! ### Theorems -/

theorem calcTiers_zero (ts : List Tier) : calcTiers ts 0 = 0 := by
  induction ts with
  | nil => rfl
  | cons t rest ih =>
    cases rest with
    | nil =>
      simp only [calcTiers]
      have h1 : ¬ ((0 : ℚ) + t.startAmount + 1 - t.startAmount ≤ 0) := by push_neg; linarith
      rw [if_neg h1]
      have h2 : ¬ ((0 : ℚ) > 0 + t.startAmount + 1 - t.startAmount) := by push_neg; linarith
      rw [if_neg h2, zero_mul]
    | cons t2 rest2 =>
      simp only [calcTiers]
      by_cases h1 : t2.startAmount - t.startAmount ≤ 0
      · rw [if_pos h1]
        exact ih
      · rw [if_neg h1]
        push_neg at h1
        have hc : ¬ ((0 : ℚ) > t2.startAmount - t.startAmount) := by push_neg; linarith
        rw [if_neg hc]
        rw [if_pos (by norm_num : (0 : ℚ) - 0 ≤ 0), zero_mul]

/-- The Go-style capped usage `if rem > rng then rng else rem` is `min rem rng`. -/
theorem goCap_eq_min (a b : ℚ) : (if a > b then b else a) = min a b := by
  split_ifs with h
  · exact (min_eq_right (le_of_lt h)).symm
  · push_neg at h
    exact (min_eq_left h).symm

/-- On a single (final) tier and non-negative remaining usage, the loop bills the
whole remaining usage at that tier's price. -/
theorem calcTiers_single (t : Tier) (rem : ℚ) (h : 0 ≤ rem) :
    calcTiers [t] rem = rem * pricePerUnit t := by
  simp only [calcTiers]
  have h1 : ¬ (rem + t.startAmount + 1 - t.startAmount ≤ 0) := by push_neg; linarith
  rw [if_neg h1]
  have h2 : ¬ (rem > rem + t.startAmount + 1 - t.startAmount) := by push_neg; linarith
  rw [if_neg h2]

/-- Closed form of one non-final loop iteration for non-negative remaining usage:
skip a non-positive range, otherwise bill `min rem range` here and recurse on the
rest (the early `break` coincides with recursing on zero remaining usage). -/
theorem calcTiers_cons_cons (t t2 : Tier) (rest : List Tier) (rem : ℚ) (_h : 0 ≤ rem) :
    calcTiers (t :: t2 :: rest) rem =
      if t2.startAmount - t.startAmount ≤ 0 then calcTiers (t2 :: rest) rem
      else min rem (t2.startAmount - t.startAmount) * pricePerUnit t
           + calcTiers (t2 :: rest) (rem - min rem (t2.startAmount - t.startAmount)) := by
  simp only [calcTiers, goCap_eq_min]
  split_ifs with h1 h2
  · rfl
  · have hm : min rem (t2.startAmount - t.startAmount) ≤ rem := min_le_left _ _
    have hz : rem - min rem (t2.startAmount - t.startAmount) = 0 := le_antisymm h2 (by linarith)
    rw [hz, calcTiers_zero, add_zero]
  · rfl

theorem calcTiers_nonneg (ts : List Tier) (rem : ℚ)
    (hp : ∀ t ∈ ts, 0 ≤ pricePerUnit t) (hrem : 0 ≤ rem) :
    0 ≤ calcTiers ts rem := by
  induction ts generalizing rem with
  | nil => simp [calcTiers]
  | cons t rest ih =>
    have hpt : 0 ≤ pricePerUnit t := hp t (by simp)
    have hp' : ∀ t' ∈ rest, 0 ≤ pricePerUnit t' := fun t' h => hp t' (by simp [h])
    cases rest with
    | nil =>
      rw [calcTiers_single t rem hrem]
      exact mul_nonneg hrem hpt
    | cons t2 rest2 =>
      rw [calcTiers_cons_cons t t2 rest2 rem hrem]
      split_ifs with h1
      · exact ih rem hp' hrem
      · push_neg at h1
        have hmn : 0 ≤ min rem (t2.startAmount - t.startAmount) :=
          le_min hrem (le_of_lt h1)
        have hml : min rem (t2.startAmount - t.startAmount) ≤ rem := min_le_left _ _
        exact add_nonneg (mul_nonneg hmn hpt)
          (ih (rem - min rem (t2.startAmount - t.startAmount)) hp' (by linarith))

theorem calcTiers_mono (ts : List Tier) (r1 r2 : ℚ)
    (hp : ∀ t ∈ ts, 0 ≤ pricePerUnit t) (h0 : 0 ≤ r1) (h12 : r1 ≤ r2) :
    calcTiers ts r1 ≤ calcTiers ts r2 := by
  induction ts generalizing r1 r2 with
  | nil => simp [calcTiers]
  | cons t rest ih =>
    have hpt : 0 ≤ pricePerUnit t := hp t (by simp)
    have hp' : ∀ t' ∈ rest, 0 ≤ pricePerUnit t' := fun t' h => hp t' (by simp [h])
    have h02 : 0 ≤ r2 := le_trans h0 h12
    cases rest with
    | nil =>
      rw [calcTiers_single t r1 h0, calcTiers_single t r2 h02]
      exact mul_le_mul_of_nonneg_right h12 hpt
    | cons t2 rest2 =>
      rw [calcTiers_cons_cons t t2 rest2 r1 h0, calcTiers_cons_cons t t2 rest2 r2 h02]
      split_ifs with h1
      · exact ih r1 r2 hp' h0 h12
      · push_neg at h1
        set rng := t2.startAmount - t.startAmount with hrngdef
        have hmm : min r1 rng ≤ min r2 rng := min_le_min h12 (le_refl rng)
        have htail : r1 - min r1 rng ≤ r2 - min r2 rng := by
          rcases le_total r1 rng with hc1 | hc1 <;> rcases le_total r2 rng with hc2 | hc2
          · rw [min_eq_left hc1, min_eq_left hc2]
            linarith
          · rw [min_eq_left hc1, min_eq_right hc2]
            linarith
          · have h1r : r1 = rng := le_antisymm (le_trans h12 hc2) hc1
            have h2r : r2 = rng := le_antisymm hc2 (le_trans hc1 h12)
            rw [h1r, h2r]
          · rw [min_eq_right hc1, min_eq_right hc2]
            linarith
        have htail0 : 0 ≤ r1 - min r1 rng := by
          have := min_le_left r1 rng
          linarith
        exact add_le_add (mul_le_mul_of_nonneg_right hmm hpt)
          (ih (r1 - min r1 rng) (r2 - min r2 rng) hp' htail0 htail)

/-- Claim C2: for a rate table whose first tier starts at 0 and second tier starts
at boundary `b = t2.startAmount`, with usage `u > b`, `CalculateCost` returns
`b * p1 + (u - b) * p2` where `p1`, `p2` are the two tiers' per-unit prices. -/
theorem calculateCost_two_tier_split (t1 t2 : Tier) (u : ℚ)
    (h1 : t1.startAmount = 0) (hb : 0 ≤ t2.startAmount) (hu : t2.startAmount < u) :
    CalculateCost (some ⟨[t1, t2]⟩) u =
      .ok (t2.startAmount * pricePerUnit t1 + (u - t2.startAmount) * pricePerUnit t2) := by
  have h0u : 0 ≤ u := le_trans hb (le_of_lt hu)
  have hCC : CalculateCost (some ⟨[t1, t2]⟩) u = .ok (calcTiers [t1, t2] u) := rfl
  rw [hCC]
  congr 1
  rw [calcTiers_cons_cons t1 t2 [] u h0u, h1, sub_zero]
  by_cases hbz : t2.startAmount ≤ 0
  · have hb0 : t2.startAmount = 0 := le_antisymm hbz hb
    rw [if_pos hbz, calcTiers_single t2 u h0u, hb0]
    norm_num
  · push_neg at hbz
    rw [if_neg (not_le.mpr hbz), min_eq_right (le_of_lt hu),
      calcTiers_single t2 (u - t2.startAmount) (by linarith)]

theorem calculateCost_two_tier_split_witness :
    CalculateCost (some ⟨[⟨0, 0, 100000000⟩, ⟨100, 0, 50000000⟩]⟩) 150 = .ok (25 / 2) := by
  have h := calculateCost_two_tier_split ⟨0, 0, 100000000⟩ ⟨100, 0, 50000000⟩ 150
    rfl (by norm_num) (by norm_num)
  rw [h]
  norm_num [pricePerUnit]

/-- Claim C3: `CalculateCost` succeeds exactly when the rate is present and its
tier list is non-empty; in every other case it returns an error. -/
theorem calculateCost_ok_iff (rate : Option Rate) (u : ℚ) :
    (∃ c, CalculateCost rate u = .ok c) ↔ ∃ r, rate = some r ∧ r.tiers ≠ [] := by
  cases rate with
  | none => simp [CalculateCost]
  | some r =>
    cases ht : r.tiers with
    | nil => simp [CalculateCost, ht]
    | cons a l =>
      constructor
      · intro _
        exact ⟨r, rfl, by simp [ht]⟩
      · intro _
        exact ⟨calcTiers r.tiers u, by simp [CalculateCost, ht]⟩

/-- Claim C5: for a rate table with strictly increasing tier start amounts and
non-negative per-unit prices, `CalculateCost` is monotonically non-decreasing in
the (non-negative) usage amount. -/
theorem calculateCost_monotone (r : Rate) (u1 u2 : ℚ)
    (hne : r.tiers ≠ [])
    (_hinc : List.Chain' (fun a b => a.startAmount < b.startAmount) r.tiers)
    (hp : ∀ t ∈ r.tiers, 0 ≤ pricePerUnit t)
    (h0 : 0 ≤ u1) (h12 : u1 ≤ u2) :
    ∃ c1 c2, CalculateCost (some r) u1 = .ok c1 ∧ CalculateCost (some r) u2 = .ok c2 ∧
      c1 ≤ c2 := by
  have hE : r.tiers.isEmpty = false := by
    cases ht : r.tiers with
    | nil => exact absurd ht hne
    | cons a l => rfl
  refine ⟨calcTiers r.tiers u1, calcTiers r.tiers u2, ?_, ?_, ?_⟩
  · simp [CalculateCost, hE]
  · simp [CalculateCost, hE]
  · exact calcTiers_mono r.tiers u1 u2 hp h0 h12

theorem calculateCost_monotone_witness :
    ∃ c1 c2,
      CalculateCost (some ⟨[⟨0, 0, 100000000⟩, ⟨100, 0, 50000000⟩]⟩) 50 = .ok c1 ∧
      CalculateCost (some ⟨[⟨0, 0, 100000000⟩, ⟨100, 0, 50000000⟩]⟩) 150 = .ok c2 ∧
      c1 ≤ c2 :=
  calculateCost_monotone ⟨[⟨0, 0, 100000000⟩, ⟨100, 0, 50000000⟩]⟩ 50 150
    (List.cons_ne_nil _ _)
    (List.chain'_cons.mpr ⟨by norm_num, List.chain'_singleton _⟩)
    (by intro t ht; fin_cases ht <;> norm_num [pricePerUnit])
    (by norm_num) (by norm_num)

/-- Claim C6: for every non-empty rate table, `CalculateCost` at usage 0 returns
cost 0 with no error, regardless of the number of tiers. -/
theorem calculateCost_zero_usage (r : Rate) (hne : r.tiers ≠ []) :
    CalculateCost (some r) 0 = .ok 0 := by
  have hE : r.tiers.isEmpty = false := by
    cases ht : r.tiers with
    | nil => exact absurd ht hne
    | cons a l => rfl
  simp [CalculateCost, hE, calcTiers_zero]

theorem calculateCost_zero_usage_witness :
    CalculateCost (some ⟨[⟨0, 0, 100000000⟩, ⟨100, 0, 50000000⟩, ⟨200, 1, 0⟩]⟩) 0 = .ok 0 :=
  calculateCost_zero_usage ⟨[⟨0, 0, 100000000⟩, ⟨100, 0, 50000000⟩, ⟨200, 1, 0⟩]⟩ (List.cons_ne_nil _ _)

/-- Claim C10: when a free-tier item matches, the reported deduction is
`min(usage, allowance)`, the billable usage is `max(0, usage - allowance)` (hence
never negative), and the cost is computed on that clamped quantity, so usage at
or below the allowance yields cost 0. -/
theorem estimateCost_free_tier_clamp (r : Rate) (u amt : ℚ)
    (hu : 0 ≤ u) (hne : r.tiers ≠ []) :
    ∃ c, estimateCost (some r) u (some amt) = .ok (min u amt, max 0 (u - amt), c) ∧
      0 ≤ max 0 (u - amt) ∧ (u ≤ amt → c = 0) := by
  have hE : r.tiers.isEmpty = false := by
    cases ht : r.tiers with
    | nil => exact absurd ht hne
    | cons a l => rfl
  refine ⟨calcTiers r.tiers (max 0 (u - amt)), ?_, le_max_left _ _, ?_⟩
  · simp [estimateCost, CalculateCost, hE, not_lt.mpr hu]
  · intro hle
    have hm : max 0 (u - amt) = 0 := max_eq_left (by linarith)
    rw [hm, calcTiers_zero]

theorem estimateCost_free_tier_clamp_witness :
    ∃ c, estimateCost (some ⟨[⟨0, 0, 100000000⟩]⟩) 5 (some 10) =
        .ok (min 5 10, max 0 (5 - 10), c) ∧
      0 ≤ max (0 : ℚ) (5 - 10) ∧ ((5 : ℚ) ≤ 10 → c = 0) :=
  estimateCost_free_tier_clamp ⟨[⟨0, 0, 100000000⟩]⟩ 5 10 (by norm_num) (List.cons_ne_nil _ _)

/-- Claim C1 (code-bug evidence): on a text with three "per month" cues and a
single "per day" cue, the code returns "day" — the mere presence of a day cue
wins, no cue counting happens — while the claim (and the repository's own
`TestExtractPeriod` cases "Month dominant with some daily mentions" and "Equal
month and day mentions defaults to month") require "month". -/
theorem extractPeriod_day_cue_wins :
    ExtractPeriod "1 GB per month, 2 GB per month, 3 GB per month, 100 reads per day." =
      "day" := by decide

/-- Claim C9 (code-bug evidence): the validation is an unanchored string-prefix
check, so an address whose host is `cloud.google.com.evil.example` — not the
allow-listed host — passes validation and the fetch proceeds (and can succeed),
contradicting "fails with an untrusted-source error without performing any
fetch". -/
theorem fetchAsText_host_allowlist_bypass :
    hostOf "https://cloud.google.com.evil.example/pricing" =
      some "cloud.google.com.evil.example" ∧
    FetchAsText (fun _ => .ok "fetched page text")
      "https://cloud.google.com.evil.example/pricing" = .ok "fetched page text" :=
  ⟨rfl, rfl⟩

/-- Claim C4 (counterexample): with an empty cache and a failing resolution,
`GetFreeTier` returns no record and no error but records NOTHING in the cache —
the resulting cache is still empty and has no entry (in particular no absence
entry) for the requested service. -/
theorem getFreeTier_failure_skips_cache_cex :
    (GetFreeTier 24 0 [] (.error "no pricing pages found for Cloud Run") "Cloud Run") =
      ((none, none), []) ∧
    cacheLookup
      (GetFreeTier 24 0 [] (.error "no pricing pages found for Cloud Run") "Cloud Run").2
      (normalizeServiceName "Cloud Run") = none :=
  ⟨rfl, rfl⟩

/-- Claim C4 (amended): on a cache miss, when resolution fails `GetFreeTier`
returns no record with no error — absorbing the failure — and leaves the cache
unchanged (no absence entry is recorded; only successful resolutions are
cached). -/
theorem getFreeTier_failure_no_record_no_error (cacheTTL now : ℤ)
    (cache : List (String × CachedFreeTier)) (err serviceName : String)
    (hmiss : cacheMiss cache now (normalizeServiceName serviceName)) :
    GetFreeTier cacheTTL now cache (.error err) serviceName = ((none, none), cache) := by
  unfold GetFreeTier
  cases hl : cacheLookup cache (normalizeServiceName serviceName) with
  | none => simp [hl]
  | some c =>
    have hexp : now > c.expiresAt := hmiss c hl
    simp [hl, IsExpired, hexp]

theorem getFreeTier_failure_no_record_no_error_witness :
    GetFreeTier 24 0 [] (.error "search failed") "Cloud Run" = ((none, none), []) :=
  getFreeTier_failure_no_record_no_error 24 0 [] "search failed" "Cloud Run"
    (fun c h => by simp [cacheLookup] at h)

theorem processMatch_pairing (pattern : FreeTierPattern)
    (st : List String × List FreeTierItem)
    (stK : List String × List (String × FreeTierItem))
    (h1 : st.1 = stK.1) (h2 : st.2 = stK.2.map Prod.snd) (mcap : List Char) :
    (processMatch pattern st mcap).1 = (processMatchK pattern stK mcap).1 ∧
    (processMatch pattern st mcap).2 =
      ((processMatchK pattern stK mcap).2).map Prod.snd := by
  cases hp : parseFloat (stripCommas mcap) with
  | none =>
    simp only [processMatch, processMatchK, hp]
    exact ⟨h1, h2⟩
  | some a =>
    simp only [processMatch, processMatchK, hp]
    by_cases hc : st.1.contains (itemKey pattern.resource (stripCommas mcap)) = true
    · have hcK : stK.1.contains (itemKey pattern.resource (stripCommas mcap)) = true := by
        rw [← h1]; exact hc
      rw [if_pos hc, if_pos hcK]
      exact ⟨h1, h2⟩
    · have hcK : ¬ stK.1.contains (itemKey pattern.resource (stripCommas mcap)) = true := by
        rw [← h1]; exact hc
      rw [if_neg hc, if_neg hcK]
      refine ⟨by rw [h1], ?_⟩
      rw [h2, List.map_append]
      rfl

theorem foldl_processMatch_pairing (pattern : FreeTierPattern)
    (caps : List (List Char)) :
    ∀ (st : List String × List FreeTierItem)
      (stK : List String × List (String × FreeTierItem)),
      st.1 = stK.1 → st.2 = stK.2.map Prod.snd →
      (caps.foldl (processMatch pattern) st).1 =
        (caps.foldl (processMatchK pattern) stK).1 ∧
      (caps.foldl (processMatch pattern) st).2 =
        ((caps.foldl (processMatchK pattern) stK).2).map Prod.snd := by
  induction caps with
  | nil => exact fun st stK h1 h2 => ⟨h1, h2⟩
  | cons c cs ih =>
    intro st stK h1 h2
    simp only [List.foldl_cons]
    have hstep := processMatch_pairing pattern st stK h1 h2 c
    exact ih _ _ hstep.1 hstep.2

theorem foldl_patterns_pairing (content : String) (pats : List FreeTierPattern) :
    ∀ (st : List String × List FreeTierItem)
      (stK : List String × List (String × FreeTierItem)),
      st.1 = stK.1 → st.2 = stK.2.map Prod.snd →
      (pats.foldl
          (fun st pattern =>
            (findAll pattern.regex content.data).foldl (processMatch pattern) st) st).1 =
        (pats.foldl
          (fun st pattern =>
            (findAll pattern.regex content.data).foldl (processMatchK pattern) st) stK).1 ∧
      (pats.foldl
          (fun st pattern =>
            (findAll pattern.regex content.data).foldl (processMatch pattern) st) st).2 =
        ((pats.foldl
          (fun st pattern =>
            (findAll pattern.regex content.data).foldl (processMatchK pattern) st) stK).2).map
          Prod.snd := by
  induction pats with
  | nil => exact fun st stK h1 h2 => ⟨h1, h2⟩
  | cons p ps ih =>
    intro st stK h1 h2
    simp only [List.foldl_cons]
    have hstep := foldl_processMatch_pairing p (findAll p.regex content.data) st stK h1 h2
    exact ih _ _ hstep.1 hstep.2

/-- The plain extraction is the annotated one with the keys forgotten. -/
theorem extract_pairing (content : String) :
    ExtractFreeTierItems content = (extractItemsK content).map Prod.snd :=
  (foldl_patterns_pairing content freeTierPatterns ([], []) ([], []) rfl rfl).2

theorem processMatchK_good (pattern : FreeTierPattern)
    (st : List String × List (String × FreeTierItem)) (mcap : List Char)
    (h : GoodState st) : GoodState (processMatchK pattern st mcap) := by
  obtain ⟨hn, hiff⟩ := h
  cases hp : parseFloat (stripCommas mcap) with
  | none =>
    simp only [processMatchK, hp]
    exact ⟨hn, hiff⟩
  | some a =>
    simp only [processMatchK, hp]
    by_cases hc : st.1.contains (itemKey pattern.resource (stripCommas mcap)) = true
    · rw [if_pos hc]
      exact ⟨hn, hiff⟩
    · rw [if_neg hc]
      have hnotseen : itemKey pattern.resource (stripCommas mcap) ∉ st.1 := by
        intro hm
        exact absurd (by simpa using hm) hc
      have hnotkeys : itemKey pattern.resource (stripCommas mcap) ∉ st.2.map Prod.fst :=
        fun hm => hnotseen ((hiff _).mpr hm)
      constructor
      · rw [List.map_append]
        simp only [List.map_cons, List.map_nil]
        rw [List.nodup_append]
        exact ⟨hn, List.nodup_singleton _, by simpa using hnotkeys⟩
      · intro k
        rw [List.map_append]
        simp only [List.map_cons, List.map_nil, List.mem_append, List.mem_cons,
          List.mem_singleton, List.not_mem_nil, or_false]
        constructor
        · rintro (rfl | hk)
          · exact Or.inr rfl
          · exact Or.inl ((hiff k).mp hk)
        · rintro (hk | rfl)
          · exact Or.inr ((hiff k).mpr hk)
          · exact Or.inl rfl

theorem processMatchK_seen_mono (pattern : FreeTierPattern)
    (st : List String × List (String × FreeTierItem)) (mcap : List Char)
    (k : String) (hk : k ∈ st.1) : k ∈ (processMatchK pattern st mcap).1 := by
  cases hp : parseFloat (stripCommas mcap) with
  | none =>
    simp only [processMatchK, hp]
    exact hk
  | some a =>
    simp only [processMatchK, hp]
    by_cases hc : st.1.contains (itemKey pattern.resource (stripCommas mcap)) = true
    · rw [if_pos hc]
      exact hk
    · rw [if_neg hc]
      exact List.mem_cons_of_mem _ hk

theorem processMatchK_key_mem (pattern : FreeTierPattern)
    (st : List String × List (String × FreeTierItem)) (mcap : List Char)
    (a : ℚ) (hp : parseFloat (stripCommas mcap) = some a) :
    itemKey pattern.resource (stripCommas mcap) ∈ (processMatchK pattern st mcap).1 := by
  simp only [processMatchK, hp]
  by_cases hc : st.1.contains (itemKey pattern.resource (stripCommas mcap)) = true
  · rw [if_pos hc]
    simpa using hc
  · rw [if_neg hc]
    exact List.mem_cons_self _ _

theorem foldl_processMatchK_good (pattern : FreeTierPattern) (caps : List (List Char)) :
    ∀ st, GoodState st → GoodState (caps.foldl (processMatchK pattern) st) := by
  induction caps with
  | nil => exact fun st h => h
  | cons c cs ih =>
    intro st h
    simp only [List.foldl_cons]
    exact ih _ (processMatchK_good pattern st c h)

theorem foldl_processMatchK_seen_mono (pattern : FreeTierPattern)
    (caps : List (List Char)) :
    ∀ st (k : String), k ∈ st.1 → k ∈ (caps.foldl (processMatchK pattern) st).1 := by
  induction caps with
  | nil => exact fun st k hk => hk
  | cons c cs ih =>
    intro st k hk
    simp only [List.foldl_cons]
    exact ih _ k (processMatchK_seen_mono pattern st c k hk)

theorem foldl_processMatchK_key_mem (pattern : FreeTierPattern)
    (caps : List (List Char)) :
    ∀ st (mcap : List Char), mcap ∈ caps →
      ∀ a, parseFloat (stripCommas mcap) = some a →
      itemKey pattern.resource (stripCommas mcap) ∈
        (caps.foldl (processMatchK pattern) st).1 := by
  induction caps with
  | nil => intro st mcap hm; exact absurd hm (List.not_mem_nil _)
  | cons c cs ih =>
    intro st mcap hm a hp
    simp only [List.foldl_cons]
    rcases List.mem_cons.mp hm with rfl | hm2
    · exact foldl_processMatchK_seen_mono pattern cs _ _
        (processMatchK_key_mem pattern st mcap a hp)
    · exact ih _ mcap hm2 a hp

theorem foldl_patternsK_good (content : String) (pats : List FreeTierPattern) :
    ∀ st, GoodState st →
      GoodState (pats.foldl
        (fun st pattern =>
          (findAll pattern.regex content.data).foldl (processMatchK pattern) st) st) := by
  induction pats with
  | nil => exact fun st h => h
  | cons p ps ih =>
    intro st h
    simp only [List.foldl_cons]
    exact ih _ (foldl_processMatchK_good p (findAll p.regex content.data) st h)

theorem foldl_patternsK_seen_mono (content : String) (pats : List FreeTierPattern) :
    ∀ st (k : String), k ∈ st.1 →
      k ∈ (pats.foldl
        (fun st pattern =>
          (findAll pattern.regex content.data).foldl (processMatchK pattern) st) st).1 := by
  induction pats with
  | nil => exact fun st k hk => hk
  | cons p ps ih =>
    intro st k hk
    simp only [List.foldl_cons]
    exact ih _ k (foldl_processMatchK_seen_mono p (findAll p.regex content.data) st k hk)

theorem foldl_patternsK_key_mem (content : String) (pats : List FreeTierPattern) :
    ∀ st (pattern : FreeTierPattern), pattern ∈ pats →
      ∀ mcap, mcap ∈ findAll pattern.regex content.data →
      ∀ a, parseFloat (stripCommas mcap) = some a →
      itemKey pattern.resource (stripCommas mcap) ∈
        (pats.foldl
          (fun st pattern =>
            (findAll pattern.regex content.data).foldl (processMatchK pattern) st) st).1 := by
  induction pats with
  | nil => intro st pattern hm; exact absurd hm (List.not_mem_nil _)
  | cons p ps ih =>
    intro st pattern hm mcap hcap a hp
    simp only [List.foldl_cons]
    rcases List.mem_cons.mp hm with rfl | hm2
    · exact foldl_patternsK_seen_mono content ps _ _
        (foldl_processMatchK_key_mem pattern (findAll pattern.regex content.data)
          st mcap hcap a hp)
    · exact ih _ pattern hm2 mcap hcap a hp

/-- Claim C8: extraction de-duplicates by the key `(resource, raw amount string)`:
the annotated run projects onto `ExtractFreeTierItems`, its collected keys are
pairwise distinct (a repeated literal quantity for the same resource appears at
most once), and every successfully parsed match's key does appear (distinct
amounts of the same resource are all kept). -/
theorem extractFreeTierItems_dedup (content : String) :
    ExtractFreeTierItems content = (extractItemsK content).map Prod.snd ∧
    ((extractItemsK content).map Prod.fst).Nodup ∧
    ∀ pattern ∈ freeTierPatterns, ∀ mcap ∈ findAll pattern.regex content.data,
      ∀ a, parseFloat (stripCommas mcap) = some a →
        itemKey pattern.resource (stripCommas mcap) ∈
          (extractItemsK content).map Prod.fst := by
  have hgood : GoodState
      (freeTierPatterns.foldl
        (fun st pattern =>
          (findAll pattern.regex content.data).foldl (processMatchK pattern) st)
        ([], [])) :=
    foldl_patternsK_good content freeTierPatterns ([], [])
      ⟨List.nodup_nil, fun k => by simp⟩
  refine ⟨extract_pairing content, hgood.1, ?_⟩
  intro pattern hpat mcap hcap a hp
  have hseen := foldl_patternsK_key_mem content freeTierPatterns ([], [])
    pattern hpat mcap hcap a hp
  exact (hgood.2 _).mp hseen

theorem findAll_million_sample : findAll ftp7.regex sampleDoc.data = [['2']] := by
  decide

theorem digitsVal_two : digitsVal ['2'] = 2 := by
  have ht : ('2'.toNat - 48 : ℕ) = 2 := by decide
  simp [digitsVal, ht]

theorem parseFloat_two : parseFloat (stripCommas ['2']) = some 2 := by
  have h1 : stripCommas ['2'] = ['2'] := by decide
  have h2 : (['2'].splitOn '.') = [['2']] := by decide
  rw [h1]
  simp [parseFloat, h2, digitsVal_two]

theorem ftp7_mem : ftp7 ∈ freeTierPatterns := by
  unfold freeTierPatterns
  exact .tail _ (.tail _ (.tail _ (.tail _ (.tail _ (.tail _ (.head _))))))

/-- Claim C7: (a) the collection loop scales every match of a rule with declared
unit "million" by 1,000,000 and stores unit "count" (or drops it to
de-duplication); (b) `ExtractFreeTierItems` on
"First 2 million invocations per month are free." yields exactly one item
`{resource := requests, amount := 2000000, unit := count}`. -/
theorem extractFreeTierItems_million_scaling :
    (∀ pattern : FreeTierPattern, pattern.unit = "million" →
      ∀ (st : List String × List FreeTierItem) (mcap : List Char),
        (processMatch pattern st mcap).2 = st.2 ∨
        ∃ a, parseFloat (stripCommas mcap) = some a ∧
          (processMatch pattern st mcap).2 =
            st.2 ++ [⟨pattern.resource, a * 1000000, "count"⟩]) ∧
    ExtractFreeTierItems sampleDoc = [⟨"requests", 2000000, "count"⟩] := by
  constructor
  · intro pattern hmu st mcap
    cases hp : parseFloat (stripCommas mcap) with
    | none =>
      left
      simp only [processMatch, hp]
    | some a =>
      by_cases hc : st.1.contains (itemKey pattern.resource (stripCommas mcap)) = true
      · left
        simp only [processMatch, hp, hc, if_true]
      · right
        refine ⟨a, rfl, ?_⟩
        simp only [processMatch, hp, hmu, if_true]
        rw [if_neg hc]
  · have e1 : findAll ftp1.regex sampleDoc.data = [] := by decide
    have e2 : findAll ftp2.regex sampleDoc.data = [] := by decide
    have e3 : findAll ftp3.regex sampleDoc.data = [] := by decide
    have e4 : findAll ftp4.regex sampleDoc.data = [] := by decide
    have e5 : findAll ftp5.regex sampleDoc.data = [] := by decide
    have e6 : findAll ftp6.regex sampleDoc.data = [] := by decide
    have e8 : findAll ftp8.regex sampleDoc.data = [] := by decide
    have e9 : findAll ftp9.regex sampleDoc.data = [] := by decide
    have e10 : findAll ftp10.regex sampleDoc.data = [] := by decide
    have e11 : findAll ftp11.regex sampleDoc.data = [] := by decide
    have e12 : findAll ftp12.regex sampleDoc.data = [] := by decide
    have e13 : findAll ftp13.regex sampleDoc.data = [] := by decide
    have e14 : findAll ftp14.regex sampleDoc.data = [] := by decide
    have e15 : findAll ftp15.regex sampleDoc.data = [] := by decide
    have e16 : findAll ftp16.regex sampleDoc.data = [] := by decide
    have e17 : findAll ftp17.regex sampleDoc.data = [] := by decide
    have hkey : itemKey ftp7.resource (stripCommas ['2']) = "requests-2" := by decide
    have hmu : ftp7.unit = "million" := rfl
    have epm : processMatch ftp7 ([], []) ['2'] =
        (["requests-2"], [⟨"requests", 2000000, "count"⟩]) := by
      simp only [processMatch, parseFloat_two, hkey, hmu, if_true]
      have hc : ¬ (([] : List String).contains "requests-2" = true) := by decide
      rw [if_neg hc]
      have hamt : (2 : ℚ) * 1000000 = 2000000 := by norm_num
      rw [hamt]
      rfl
    show ExtractFreeTierItems sampleDoc = [⟨"requests", 2000000, "count"⟩]
    unfold ExtractFreeTierItems freeTierPatterns
    simp only [List.foldl_cons, List.foldl_nil, e1, e2, e3, e4, e5, e6,
      findAll_million_sample, e8, e9, e10, e11, e12, e13, e14, e15, e16, e17, epm]

theorem extractFreeTierItems_million_scaling_witness :
    (processMatch ⟨[], "requests", "million"⟩ ([], []) ['2']).2 = ([] : List FreeTierItem) ∨
    ∃ a, parseFloat (stripCommas ['2']) = some a ∧
      (processMatch ⟨[], "requests", "million"⟩ ([], []) ['2']).2 =
        ([] : List FreeTierItem) ++ [⟨"requests", a * 1000000, "count"⟩] :=
  extractFreeTierItems_million_scaling.1 ⟨[], "requests", "million"⟩ rfl ([], []) ['2']

theorem extractFreeTierItems_dedup_witness :
    itemKey ftp7.resource (stripCommas ['2']) ∈
      (extractItemsK sampleDoc).map Prod.fst :=
  (extractFreeTierItems_dedup sampleDoc).2.2
    ftp7 ftp7_mem ['2']
    (by rw [findAll_million_sample]; exact List.mem_singleton.mpr rfl)
    2 parseFloat_two

end GcpCost
